import Mathlib

/-!
# Verification of the RAG-ollama orchestration core

A shallow embedding, in Lean 4, of the retrieval-augmented-generation backend
(`backend/src/utils/chromadb.js`, `backend/src/services/ragService.js`,
`backend/src/services/chatService.js`, `backend/src/services/documentService.js`,
`backend/src/controllers/chatController.js`), together with theorems settling
the behavioural properties stated in the specification.

Conventions of the embedding:
* JavaScript `Map` objects are modelled as association lists that preserve
  insertion order (`set` on an existing key updates in place, otherwise
  appends; iteration order is list order), matching ECMAScript semantics.
* Network calls (ChromaDB, Ollama) are modelled as oracle parameters: a
  backend is a function from the attempt number to `Except String result`,
  an inference call is a value of type `Except String String`, etc.
* `Date.now()` is threaded explicitly as a `Nat` millisecond clock.
* Thrown JS exceptions are `Except.error` carrying the message string.
* JS string `.substring`/truthiness are modelled on Lean `String`
  (`String.take`, emptiness test); documents in this system are plain text.
-/

namespace RagOllama

/-! ## JavaScript `Map` semantics (insertion-ordered association list) -/

/-- `Map.prototype.get`: first binding of the key, if any. -/
def mapGet? {β : Type} (m : List (String × β)) (k : String) : Option β :=
  (m.find? (fun p => p.1 = k)).map (fun p => p.2)

/-- `Map.prototype.has`. -/
def mapHas {β : Type} (m : List (String × β)) (k : String) : Bool :=
  m.any (fun p => p.1 = k)

/-- `Map.prototype.set`: update in place when the key exists (keeping its
position in iteration order), otherwise append at the end. -/
def mapSet {β : Type} (m : List (String × β)) (k : String) (v : β) :
    List (String × β) :=
  if mapHas m k then
    m.map (fun p => if p.1 = k then (k, v) else p)
  else
    m ++ [(k, v)]

/-- `Map.prototype.delete`. -/
def mapDelete {β : Type} (m : List (String × β)) (k : String) :
    List (String × β) :=
  m.filter (fun p => p.1 ≠ k)

/-- `map.keys().next().value`: the first key in iteration order. -/
def mapFirstKey? {β : Type} (m : List (String × β)) : Option String :=
  m.head?.map (fun p => p.1)

/-! ## ChromaDB query results and the query cache (`utils/chromadb.js`) -/

/-- A document's metadata, as used by the services: only the `source` field is
read (`metadata.source`), which may be absent. -/
structure Metadata where
  source : Option String
deriving DecidableEq, Repr

/-- The result object returned by `collection.query` (ChromaDB): parallel
per-query-text arrays of ids, documents and metadatas. -/
structure QueryResults where
  ids : List (List String)
  documents : List (List String)
  metadatas : List (List Metadata)
deriving DecidableEq, Repr

/-- `MAX_CACHE_SIZE` in `utils/chromadb.js`. -/
def MAX_CACHE_SIZE : Nat := 100

/-- `CACHE_TTL` in `utils/chromadb.js` (30 minutes, in ms). -/
def CACHE_TTL : Nat := 30 * 60 * 1000

/-- One entry of the query cache: `{ timestamp: Date.now(), results }`. -/
structure CacheEntry where
  timestamp : Nat
  results : QueryResults
deriving DecidableEq, Repr

/-- The module-level `queryCache` map. -/
abbrev QueryCache := List (String × CacheEntry)

/-- `addToCache(cacheKey, results)` from `utils/chromadb.js`:
if `queryCache.size >= MAX_CACHE_SIZE`, delete the first key in iteration
order, then `set` the new entry (timestamped with the current clock). -/
def addToCache (cache : QueryCache) (cacheKey : String) (now : Nat)
    (results : QueryResults) : QueryCache :=
  let cache :=
    if MAX_CACHE_SIZE ≤ cache.length then
      match mapFirstKey? cache with
      | some oldestKey => mapDelete cache oldestKey
      | none => cache
    else cache
  mapSet cache cacheKey ⟨now, results⟩

/-- `getFromCache(cacheKey)` from `utils/chromadb.js`: returns the cached
results when present and not expired; an expired entry is deleted at the
read and treated as absent.  Returns the value read together with the
(possibly shrunk) cache. -/
def getFromCache (cache : QueryCache) (cacheKey : String) (now : Nat) :
    Option QueryResults × QueryCache :=
  match mapGet? cache cacheKey with
  | none => (none, cache)
  | some cachedData =>
    if CACHE_TTL < now - cachedData.timestamp then
      (none, mapDelete cache cacheKey)
    else
      (some cachedData.results, cache)

/-- `generateCacheKey(collection, nResults, queryTexts, options)`:
`` `${collection.name}_${nResults}_${queryTexts.join('|')}_${JSON.stringify(options)}` ``.
The serialized options object is carried as an opaque string. -/
def generateCacheKey (collectionName : String) (nResults : Nat)
    (queryTexts : List String) (optionsJson : String) : String :=
  collectionName ++ "_" ++ toString nResults ++ "_"
    ++ String.intercalate "|" queryTexts ++ "_" ++ optionsJson

/-- `maxAttempts` in `queryCollection`. -/
def MAX_ATTEMPTS : Nat := 3

/-- The retry loop of `queryCollection` (`utils/chromadb.js` lines 144-161).
`backend i` is the outcome of the i-th `collection.query` call (1-indexed);
`attempts` is the number of failed attempts so far, 0 at loop entry.
Returns the loop's outcome, the number of backend calls made, and the list
of waits (in ms) performed between consecutive attempts
(`setTimeout(..., 500 * attempts)` after the `attempts`-th failure).
The `else` branch is unreachable from `attempts = 0`: the loop exits only
by `break` (success) or `throw` (third failure). -/
def retryLoopFuel (backend : Nat → Except String QueryResults) :
    Nat → Nat → Except String QueryResults × Nat × List Nat
  | 0, _ => (.error "", 0, [])
  | fuel + 1, attempts =>
    match backend (attempts + 1) with
    | .ok r => (.ok r, 1, [])
    | .error e =>
      if MAX_ATTEMPTS ≤ attempts + 1 then
        (.error e, 1, [])
      else
        let rest := retryLoopFuel backend fuel (attempts + 1)
        (rest.1, rest.2.1 + 1, 500 * (attempts + 1) :: rest.2.2)

/-- The retry loop entered with `attempts` failures so far: the fuel
`MAX_ATTEMPTS - attempts` encodes the `while` guard (zero fuel means the
guard `attempts < maxAttempts` is false on entry, which cannot happen from
`attempts = 0`). -/
def retryLoop (backend : Nat → Except String QueryResults) (attempts : Nat) :
    Except String QueryResults × Nat × List Nat :=
  retryLoopFuel backend (MAX_ATTEMPTS - attempts) attempts

/-- Observable outcome of one `queryCollection` call. -/
structure QueryOutcome where
  result : Except String QueryResults
  cache : QueryCache
  backendCalls : Nat
  waitsMs : List Nat
deriving Repr

/-- `queryCollection(collection, nResults, queryTexts, options)` from
`utils/chromadb.js`: cache lookup, then up to `MAX_ATTEMPTS` backend
attempts, caching the result on success and rethrowing the last error after
the final failed attempt.  The `where`/`whereDocument` plumbing only shapes
the request sent to the opaque backend and is absorbed into the `backend`
oracle; the options string enters the cache key. -/
def queryCollection (cache : QueryCache) (collectionName : String)
    (nResults : Nat) (queryTexts : List String) (optionsJson : String)
    (now : Nat) (backend : Nat → Except String QueryResults) : QueryOutcome :=
  let cacheKey := generateCacheKey collectionName nResults queryTexts optionsJson
  let cached := getFromCache cache cacheKey now
  match cached.1 with
  | some cachedResults => ⟨.ok cachedResults, cached.2, 0, []⟩
  | none =>
    let res := retryLoop backend 0
    match res.1 with
    | .ok r => ⟨.ok r, addToCache cached.2 cacheKey now r, res.2.1, res.2.2⟩
    | .error e => ⟨.error e, cached.2, res.2.1, res.2.2⟩

/-! ## Vector-index mutations (`services/documentService.js`, `utils/chromadb.js`) -/

/-- Joint state of the vector index (document ids of the `rag_documents`
collection) and the query cache it shares a process with. -/
structure IndexState where
  docs : List String
  cache : QueryCache
deriving Repr

/-- `addDocument(title, content, metadata)` from `services/documentService.js`
(lines 15-51): generates an id and calls `collection.add`.  It performs no
cache operation: `queryCache` is untouched. -/
def addDocument (st : IndexState) (docId : String) : IndexState :=
  { st with docs := st.docs ++ [docId] }

/-- `deleteAllDocuments(collection)` from `utils/chromadb.js` (lines 195-220):
when the collection holds documents, deletes them all and calls
`queryCache.clear()`; otherwise returns without touching the cache. -/
def deleteAllDocuments (st : IndexState) : IndexState :=
  if 0 < st.docs.length then { docs := [], cache := [] } else st

/-- A retrieval issued against the shared state: runs `queryCollection` on the
current cache and threads the updated cache back into the state. -/
def stepQuery (st : IndexState) (collectionName : String) (nResults : Nat)
    (queryTexts : List String) (optionsJson : String) (now : Nat)
    (backend : Nat → Except String QueryResults) : IndexState × QueryOutcome :=
  let o := queryCollection st.cache collectionName nResults queryTexts
    optionsJson now backend
  ({ st with cache := o.cache }, o)

/-! ## Messages and source extraction (`ragService.js`, `chatService.js`) -/

/-- A chat message role. -/
inductive Role where
  | system
  | user
  | assistant
deriving DecidableEq, Repr

/-- One `{role, content}` message.  Conversation entries in `chatService.js`
additionally carry a `timestamp`, which is dropped before the messages are
sent to Ollama and is never read by any code path verified here. -/
structure ChatMsg where
  role : Role
  content : String
deriving DecidableEq, Repr

/-- One entry of the `sources`/`relevantDocs` array returned to the caller
(`{id, title, content}`). -/
structure SourceEntry where
  id : String
  title : String
  content : String
deriving DecidableEq, Repr

/-- JS `x || dflt` on an optional string field: `undefined` and `""` are
falsy. -/
def jsOrElse (s : Option String) (dflt : String) : String :=
  match s with
  | some v => if v = "" then dflt else v
  | none => dflt

/-- JS `str.substring(0, 100)` (clamped to the string's length). -/
def jsSubstring100 (s : String) : String := s.take 100

/-- `arr.slice(-n)`: the trailing window of up to `n` elements. -/
def jsSliceLast {α : Type} (n : Nat) (l : List α) : List α :=
  l.drop (l.length - n)

/-- The documents of the first query text: `results.documents[0]`, or `[]`
when absent. -/
def firstDocs (results : QueryResults) : List String :=
  results.documents.head?.getD []

/-- The ids of the first query text. -/
def firstIds (results : QueryResults) : List String :=
  results.ids.head?.getD []

/-- The metadatas of the first query text. -/
def firstMetas (results : QueryResults) : List Metadata :=
  results.metadatas.head?.getD []

/-- Context/sources extraction in `ragService.js` `queryWithContext`
(lines 67-84): guarded by `results.documents[0].length > 0`; the context is
`documents[0].join('\n\n')`; `sources` maps over `metadatas[0]`, reading
`ids[0][index]` and `documents[0][index].substring(0, 100) + '...'`.
ChromaDB results are well-formed parallel arrays, so positional reads are
modelled with a default for the (never exercised) out-of-range case. -/
def ragExtract (results : QueryResults) : String × List SourceEntry :=
  let docs0 := firstDocs results
  if 0 < docs0.length then
    (String.intercalate "\n\n" docs0,
      (firstMetas results).enum.map (fun p =>
        { id := (firstIds results).getD p.1 ""
          title := jsOrElse p.2.source ("Document " ++ toString (p.1 + 1))
          content := jsSubstring100 (docs0.getD p.1 "") ++ "..." }))
  else
    ("", [])

/-- Context/sources extraction in `chatService.js` `chatWithContext`
(lines 368-381): same guard and context; `relevantDocs` maps over
`documents[0]`, reading `results.metadatas[0][index]?.source`. -/
def chatExtract (results : QueryResults) : String × List SourceEntry :=
  let docs0 := firstDocs results
  if 0 < docs0.length then
    (String.intercalate "\n\n" docs0,
      docs0.enum.map (fun p =>
        { id := (firstIds results).getD p.1 ""
          title := jsOrElse (((firstMetas results).get? p.1).bind
              (fun m => m.source)) ("Document " ++ toString (p.1 + 1))
          content := jsSubstring100 p.2 ++ "..." }))
  else
    ("", [])

/-- The base system prompt of `ragService.js` `queryWithContext` (template
literal at lines 92-95, including its embedded indentation). -/
def ragSystemPrompt : String :=
  "You are a knowledgeable assistant with access to a specialized database.\n      Your task is to answer the user's question using ONLY the information provided in the context below.\n      If the context doesn't contain relevant information, acknowledge that you don't know.\n      Do not make up information or use your training data to answer."

/-- The base system prompt of `chatService.js` `chatWithContext` (lines
387-392). -/
def chatBasePrompt : String :=
  "You are a knowledgeable assistant with access to a specialized database.\n      When answering questions:\n      1. First analyze the context carefully\n      2. Cite specific documents when possible\n      3. Format responses with bullet points for readability\n      4. If uncertain, acknowledge limitations"

/-- The chain-of-thought suffix appended in `chatService.js` (lines 396-399;
the source lines end in a trailing space before the newline). -/
def chatCotSuffix : String :=
  "\n\nIMPORTANT: Use a step-by-step thinking process to solve problems or answer questions. \nFirst, understand the question. Then, analyze the available information. \nFinally, reason through to the answer, showing your work by prefacing it with \"Thinking: \".\nAfter you've worked through your reasoning, provide a clear, concise answer."

/-- The system prompt of `chatWithContext` after optional chain-of-thought
extension. -/
def chatSystemPrompt (useChainOfThought : Bool) : String :=
  if useChainOfThought then chatBasePrompt ++ chatCotSuffix else chatBasePrompt

/-- The message sequence assembled by `ragService.js` `queryWithContext`
(lines 86-110): base system message, a `Context information:` system
message only when the context string is non-empty, then the user query. -/
def ragMessages (context : String) (userQuery : String) : List ChatMsg :=
  [⟨.system, ragSystemPrompt⟩]
    ++ (if context = "" then []
        else [⟨.system, "Context information:\n" ++ context⟩])
    ++ [⟨.user, userQuery⟩]

/-- The message sequence assembled by `chatService.js` `chatWithContext`
(lines 402-422): base system message; then — with `historyMessages`
computed as `conversation.messages.slice(-10)` after the new user message
has been pushed — the optional `Context information:` system message, then
the history window. -/
def assembleChatMessages (conversationMessages : List ChatMsg)
    (context : String) (useChainOfThought : Bool) : List ChatMsg :=
  let historyMessages := jsSliceLast 10 conversationMessages
  [⟨.system, chatSystemPrompt useChainOfThought⟩]
    ++ (if context = "" then []
        else [⟨.system, "Context information:\n" ++ context⟩])
    ++ historyMessages

/-! ## The two service entry points, as functions of their oracles -/

/-- The oracles consumed by one `queryWithContext`/`chatWithContext` call:
the outcome of the ChromaDB retrieval (after `queryCollection`'s internal
retries) and the outcome of the Ollama `chat` call. -/
structure CallEnv where
  retrieval : Except String QueryResults
  chatReply : Except String String

/-- The value returned by `ragService.js` `queryWithContext` (metrics other
than the source count are timing data, not modelled). -/
structure RagResponse where
  answer : String
  sources : List SourceEntry
  numSources : Nat
deriving DecidableEq, Repr

/-- `queryWithContext(userQuery, numResults)` from `ragService.js` (lines
49-140).  The entire body sits in one `try`: any thrown error — including a
retrieval failure out of `queryCollection` — is rethrown as
`Failed to process query: ...`. -/
def queryWithContext (userQuery : String) (env : CallEnv) :
    Except String RagResponse :=
  match env.retrieval with
  | .error e => .error ("Failed to process query: " ++ e)
  | .ok results =>
    let ex := ragExtract results
    match env.chatReply with
    | .error e => .error ("Failed to process query: " ++ e)
    | .ok answer =>
      .ok { answer := answer, sources := ex.2, numSources := ex.2.length }

/-- The value returned by `chatService.js` `chatWithContext`. -/
structure ChatResponse where
  answer : String
  conversationMessageCount : Nat
  documents : List SourceEntry
deriving DecidableEq, Repr

/-- `chatWithContext(conversationId, userMessage, useChainOfThought)` from
`chatService.js` (lines 331-470).  The new user message is pushed onto the
conversation before retrieval; the ChromaDB query sits in its own inner
`try` whose `catch` only logs, so a retrieval failure degrades to empty
context and no documents; an Ollama failure is rethrown by the outer
`catch` as `Failed to generate chat response: ...` (the pushed user message
remains in the conversation).  Returns the call's outcome together with
the final conversation message list. -/
def chatWithContext (conversationMessages : List ChatMsg)
    (userMessage : String) (useChainOfThought : Bool) (env : CallEnv) :
    Except String ChatResponse × List ChatMsg :=
  let conv1 := conversationMessages ++ [⟨.user, userMessage⟩]
  let ex :=
    match env.retrieval with
    | .ok results => chatExtract results
    | .error _ => ("", [])
  match env.chatReply with
  | .error e => (.error ("Failed to generate chat response: " ++ e), conv1)
  | .ok reply =>
    let conv2 := conv1 ++ [⟨.assistant, reply⟩]
    (.ok { answer := reply, conversationMessageCount := conv2.length,
           documents := ex.2 }, conv2)

/-- The messages actually passed to `ollama.chat` by `chatWithContext` for a
given starting conversation: `assembleChatMessages` applied to the
conversation with the new user message pushed. -/
def chatMessagesSent (conversationMessages : List ChatMsg)
    (userMessage : String) (useChainOfThought : Bool) (env : CallEnv) :
    List ChatMsg :=
  let context :=
    match env.retrieval with
    | .ok results => (chatExtract results).1
    | .error _ => ""
  assembleChatMessages (conversationMessages ++ [⟨.user, userMessage⟩])
    context useChainOfThought

/-! ## Ollama client lifecycle (`ragService.js` lines 5-41) -/

/-- A handle to the Ollama backend; handles are distinguished by the order in
which they were constructed. -/
structure OllamaClient where
  id : Nat
deriving DecidableEq, Repr

/-- The module state of `ragService.js`: the `ollamaClient` global, plus a
counter supplying fresh identities to `new Ollama(...)` constructions. -/
structure ClientState where
  ollamaClient : Option OllamaClient
  nextId : Nat
deriving DecidableEq, Repr

/-- `getOllamaClient()` (lines 11-22): lazily constructs the client.  The
constructor only records configuration and performs no I/O, so it is
modelled as non-throwing. -/
def getOllamaClient (st : ClientState) : OllamaClient × ClientState :=
  match st.ollamaClient with
  | some c => (c, st)
  | none =>
    (⟨st.nextId⟩, { ollamaClient := some ⟨st.nextId⟩, nextId := st.nextId + 1 })

/-- `ensureOllamaConnection()` (lines 28-41): probes the client with
`.list()` (`healthy` tells whether that probe succeeds for a given handle);
on probe failure, nulls the global and eagerly reconstructs a fresh client,
returning `false`.  All exceptions are caught, so the function itself never
throws. -/
def ensureOllamaConnection (st : ClientState)
    (healthy : OllamaClient → Bool) : Bool × ClientState :=
  let probe := getOllamaClient st
  if healthy probe.1 then
    (true, probe.2)
  else
    let reset : ClientState := { probe.2 with ollamaClient := none }
    (false, (getOllamaClient reset).2)

/-! ## The chat controller (`controllers/chatController.js`) -/

/-- The request fields read by `processChatMessage`.  A missing `message` is
`none`; JS `if (!message)` also rejects the empty string. -/
structure ChatRequest where
  message : Option String
  conversationId : Option String
  useChainOfThought : Bool

/-- The per-conversation JSON files under `data/conversations`, keyed by
conversation id. -/
abbrev ConvFileStore := List (String × List ChatMsg)

/-- Observable outcome of one `processChatMessage` call. -/
structure ControllerResult where
  status : Nat
  errorMsg : Option String
  chatServiceCalled : Bool
  store : ConvFileStore

/-- `processChatMessage(req, res)` from `controllers/chatController.js`
(lines 67-140): rejects a falsy `message` with a 400 before any service
call or file write; otherwise invokes `chatWithContext` and appends the
user and assistant messages to the conversation file.  `chatService` is
the oracle for the service call (answer and documents on success). -/
def processChatMessage (req : ChatRequest) (store : ConvFileStore)
    (freshId : String)
    (chatService : String → String → Bool →
      Except String (String × List SourceEntry)) : ControllerResult :=
  let conversationId := req.conversationId.getD freshId
  match req.message with
  | none => ⟨400, some "Message is required", false, store⟩
  | some message =>
    if message = "" then ⟨400, some "Message is required", false, store⟩
    else
      match chatService conversationId message req.useChainOfThought with
      | .error e =>
        ⟨500, some ("Failed to process chat message: " ++ e), true, store⟩
      | .ok reply =>
        let conversation := (mapGet? store conversationId).getD []
        let conversation := conversation
          ++ [⟨.user, message⟩, ⟨.assistant, reply.1⟩]
        ⟨200, none, true, mapSet store conversationId conversation⟩

/-! ## Map and cache lemmas -/

theorem find?_eq_none_of_mapHas_false {β : Type} {m : List (String × β)}
    {k : String} (h : mapHas m k = false) :
    m.find? (fun p => p.1 = k) = none := by
  rw [List.find?_eq_none]
  intro p hp
  simp only [mapHas, List.any_eq_false] at h
  simpa using h p hp

theorem find?_update_self {β : Type} (m : List (String × β)) (k : String)
    (v : β) (h : mapHas m k = true) :
    (m.map (fun p => if p.1 = k then (k, v) else p)).find?
      (fun p => p.1 = k) = some (k, v) := by
  induction m with
  | nil => simp [mapHas] at h
  | cons a t ih =>
    by_cases ha : a.1 = k
    · simp [ha]
    · have ht : mapHas t k = true := by
        have h' := h
        simp only [mapHas, List.any_cons, Bool.or_eq_true,
          decide_eq_true_eq] at h'
        rcases h' with h' | h'
        · exact absurd h' ha
        · simpa [mapHas] using h'
      simp [ha, ih ht]

theorem mapGet?_mapSet_self {β : Type} (m : List (String × β)) (k : String)
    (v : β) : mapGet? (mapSet m k v) k = some v := by
  unfold mapGet? mapSet
  by_cases h : mapHas m k
  · rw [if_pos h, find?_update_self m k v h]
    rfl
  · rw [if_neg h, List.find?_append,
      find?_eq_none_of_mapHas_false (Bool.eq_false_iff.mpr h)]
    simp

theorem mapGet?_addToCache_self (cache : QueryCache) (k : String) (now : Nat)
    (r : QueryResults) :
    mapGet? (addToCache cache k now r) k = some ⟨now, r⟩ := by
  unfold addToCache
  split
  · split
    · exact mapGet?_mapSet_self _ k _
    · exact mapGet?_mapSet_self _ k _
  · exact mapGet?_mapSet_self _ k _

theorem getFromCache_addToCache_self (cache : QueryCache) (k : String)
    (now now' : Nat) (r : QueryResults) (h : now' - now ≤ CACHE_TTL) :
    getFromCache (addToCache cache k now r) k now'
      = (some r, addToCache cache k now r) := by
  unfold getFromCache
  rw [mapGet?_addToCache_self]
  simp [Nat.not_lt.mpr h]

theorem retryLoopFuel_calls_pos (backend : Nat → Except String QueryResults)
    (fuel attempts : Nat) :
    1 ≤ (retryLoopFuel backend (fuel + 1) attempts).2.1 := by
  unfold retryLoopFuel
  cases backend (attempts + 1) with
  | ok r => simp
  | error e =>
    by_cases h : MAX_ATTEMPTS ≤ attempts + 1 <;> simp [h]

theorem retryLoop_calls_pos (backend : Nat → Except String QueryResults) :
    1 ≤ (retryLoop backend 0).2.1 :=
  retryLoopFuel_calls_pos backend 2 0

/-! ## C1 — graceful degradation on retrieval failure -/

/-- Concrete inputs for the C1 counterexample. -/
def c1Env : CallEnv := ⟨.error "connect ECONNREFUSED", .ok "some answer"⟩

/-- C1 counterexample: when the vector-store retrieval fails (all retries
exhausted) but the LLM inference call would succeed, `queryWithContext`
does **not** return a non-error result — its single outer `try` catches the
retrieval error and rethrows it as `Failed to process query: ...`, so the
retrieval failure is propagated to the caller. -/
theorem C1_counterexample :
    queryWithContext "What is JavaScript?" c1Env
      = .error "Failed to process query: connect ECONNREFUSED" := rfl

/-- C1 (amended): when retrieval fails on all attempts but the inference call
succeeds, `chatWithContext` still returns a non-error result whose
documents list is empty (the answer being the inference reply, with both
turns appended to the conversation); `queryWithContext`, by contrast,
propagates the retrieval failure as a `Failed to process query:` error
regardless of the inference outcome. -/
theorem C1_amended (conv : List ChatMsg) (u : String) (cot : Bool)
    (e reply : String) :
    chatWithContext conv u cot ⟨.error e, .ok reply⟩
      = (.ok ⟨reply, conv.length + 2, []⟩,
          conv ++ [⟨.user, u⟩, ⟨.assistant, reply⟩]) ∧
    ∀ r : Except String String,
      queryWithContext u ⟨.error e, r⟩
        = .error ("Failed to process query: " ++ e) := by
  constructor
  · simp [chatWithContext]
  · intro r
    simp [queryWithContext]

/-! ## C7 — controller validation of empty/missing message -/

/-- C7: a request whose `message` is missing or empty is rejected with a 400
immediately: the chat service (and hence the whole
retrieval/inference pipeline) is not invoked and the conversation store is
returned unchanged. -/
theorem C7_validation (req : ChatRequest) (store : ConvFileStore)
    (freshId : String)
    (svc : String → String → Bool → Except String (String × List SourceEntry))
    (h : req.message = none ∨ req.message = some "") :
    processChatMessage req store freshId svc
      = ⟨400, some "Message is required", false, store⟩ := by
  rcases h with h | h <;> simp [processChatMessage, h]

/-- C7 witness: the validation theorem applied to a concrete empty-message
request with a non-trivial store. -/
theorem C7_validation_witness :
    processChatMessage ⟨some "", some "conv-1", false⟩
        [("conv-1", [⟨Role.user, "hi"⟩])] "fresh"
        (fun _ _ _ => .ok ("answer", []))
      = ⟨400, some "Message is required", false,
          [("conv-1", [⟨Role.user, "hi"⟩])]⟩ :=
  C7_validation ⟨some "", some "conv-1", false⟩
    [("conv-1", [⟨Role.user, "hi"⟩])] "fresh"
    (fun _ _ _ => .ok ("answer", [])) (Or.inr rfl)

/-! ## C6 — retry/backoff behaviour of `queryCollection` on a cache miss -/

/-- C6: on a cache miss, `queryCollection` calls the backend with up to 3
attempts, waiting `500 ms × (number of the just-failed attempt)` between
consecutive attempts; it rethrows the backend error only once all 3
attempts have failed (the error of the last attempt, with the cache left
as the lookup left it), and on a successful attempt it stores the result
in the cache — retrievable under the same key — before returning it. -/
theorem C6_retry (cache : QueryCache) (cn : String) (nr : Nat)
    (qts : List String) (opts : String) (now : Nat)
    (backend : Nat → Except String QueryResults)
    (hmiss : (getFromCache cache (generateCacheKey cn nr qts opts) now).1
      = none) :
    (∀ r, backend 1 = .ok r →
      queryCollection cache cn nr qts opts now backend
        = ⟨.ok r,
            addToCache (getFromCache cache (generateCacheKey cn nr qts opts)
                now).2
              (generateCacheKey cn nr qts opts) now r, 1, []⟩) ∧
    (∀ e1 r, backend 1 = .error e1 → backend 2 = .ok r →
      queryCollection cache cn nr qts opts now backend
        = ⟨.ok r,
            addToCache (getFromCache cache (generateCacheKey cn nr qts opts)
                now).2
              (generateCacheKey cn nr qts opts) now r, 2, [500]⟩) ∧
    (∀ e1 e2 r, backend 1 = .error e1 → backend 2 = .error e2 →
        backend 3 = .ok r →
      queryCollection cache cn nr qts opts now backend
        = ⟨.ok r,
            addToCache (getFromCache cache (generateCacheKey cn nr qts opts)
                now).2
              (generateCacheKey cn nr qts opts) now r, 3, [500, 1000]⟩) ∧
    (∀ e1 e2 e3, backend 1 = .error e1 → backend 2 = .error e2 →
        backend 3 = .error e3 →
      queryCollection cache cn nr qts opts now backend
        = ⟨.error e3,
            (getFromCache cache (generateCacheKey cn nr qts opts) now).2,
            3, [500, 1000]⟩) ∧
    (∀ r, (retryLoop backend 0).1 = .ok r →
      (getFromCache (queryCollection cache cn nr qts opts now backend).cache
          (generateCacheKey cn nr qts opts) now).1 = some r) := by
  refine ⟨?_, ?_, ?_, ?_, ?_⟩
  · intro r hb1
    simp [queryCollection, hmiss, retryLoop, MAX_ATTEMPTS, retryLoopFuel, hb1]
  · intro e1 r hb1 hb2
    simp [queryCollection, hmiss, retryLoop, MAX_ATTEMPTS, retryLoopFuel,
      hb1, hb2]
  · intro e1 e2 r hb1 hb2 hb3
    simp [queryCollection, hmiss, retryLoop, MAX_ATTEMPTS, retryLoopFuel,
      hb1, hb2, hb3]
  · intro e1 e2 e3 hb1 hb2 hb3
    simp [queryCollection, hmiss, retryLoop, MAX_ATTEMPTS, retryLoopFuel,
      hb1, hb2, hb3]
  · intro r hok
    have hcache :
        (queryCollection cache cn nr qts opts now backend).cache
          = addToCache
              (getFromCache cache (generateCacheKey cn nr qts opts) now).2
              (generateCacheKey cn nr qts opts) now r := by
      simp [queryCollection, hmiss, hok]
    rw [hcache,
      getFromCache_addToCache_self _ _ _ _ _ (by simp [CACHE_TTL])]

/-- Concrete backend for the C6 witness: first attempt fails, second
succeeds. -/
def c6Backend : Nat → Except String QueryResults :=
  fun n => if n = 1 then .error "e1" else .ok ⟨[], [], []⟩

/-- C6 witness: the retry theorem applied to the empty cache and a backend
that fails once and then succeeds: two backend calls, one 500 ms wait. -/
theorem C6_retry_witness :
    queryCollection [] "c" 3 ["q"] "{}" 0 c6Backend
      = ⟨.ok ⟨[], [], []⟩,
          addToCache (getFromCache [] (generateCacheKey "c" 3 ["q"] "{}") 0).2
            (generateCacheKey "c" 3 ["q"] "{}") 0 ⟨[], [], []⟩, 2, [500]⟩ :=
  (C6_retry [] "c" 3 ["q"] "{}" 0 c6Backend rfl).2.1 "e1" ⟨[], [], []⟩ rfl rfl

/-! ## C2 — cache invalidation on index mutations -/

/-- A pre-mutation retrieval result (one matching document). -/
def resR1 : QueryResults :=
  ⟨[["d1"]], [["JavaScript is a programming language."]], [[⟨some "Doc A"⟩]]⟩

/-- The retrieval result the backend would return after the second document
was added. -/
def resR2 : QueryResults :=
  ⟨[["d1", "d2"]],
    [["JavaScript is a programming language.", "Second document."]],
    [[⟨some "Doc A"⟩, ⟨some "Doc B"⟩]]⟩

/-- C2 trace: the index holds `d1` and the cache is empty; a query is issued
and cached. -/
def c2State1 : IndexState :=
  (stepQuery ⟨["d1"], []⟩ "rag_documents" 3 ["q"] "{}" 0
    (fun _ => .ok resR1)).1

/-- C2 trace: a document is then added through `addDocument`. -/
def c2State2 : IndexState := addDocument c2State1 "d2"

/-- C2 trace: the identical query is reissued within the TTL, against a
backend that would now return the post-mutation result `resR2`. -/
def c2Outcome : QueryOutcome :=
  (stepQuery c2State2 "rag_documents" 3 ["q"] "{}" 1000
    (fun _ => .ok resR2)).2

/-- C2 counterexample: `addDocument` performs no cache invalidation, so the
identical query issued after the mutation makes **no** backend call and
returns the stale pre-mutation result `resR1` instead of `resR2`. -/
theorem C2_counterexample :
    c2Outcome.backendCalls = 0 ∧ c2Outcome.result = .ok resR1 ∧
    resR1 ≠ resR2 := by
  exact ⟨rfl, rfl, by decide⟩

/-- C2 (amended): deleting the documents of a non-empty collection through
`deleteAllDocuments` clears the query cache wholesale, so any subsequent
query incurs a fresh backend call; `addDocument`, however, mutates the
index without touching the cache, so an identical query issued within the
TTL after an add can be served the pre-mutation cached result. -/
theorem C2_amended :
    (∀ st docId, (addDocument st docId).cache = st.cache ∧
        (addDocument st docId).docs = st.docs ++ [docId]) ∧
    (∀ st : IndexState, st.docs ≠ [] →
      (deleteAllDocuments st).cache = [] ∧
      ∀ cn nr qts opts now backend,
        1 ≤ ((stepQuery (deleteAllDocuments st) cn nr qts opts now
          backend).2).backendCalls) := by
  constructor
  · intro st docId
    exact ⟨rfl, rfl⟩
  · intro st hne
    have hd : 0 < st.docs.length := List.length_pos.mpr hne
    refine ⟨by simp [deleteAllDocuments, hd], ?_⟩
    intro cn nr qts opts now backend
    have hcache : (deleteAllDocuments st).cache = [] := by
      simp [deleteAllDocuments, hd]
    have hpos := retryLoop_calls_pos backend
    rcases hq : retryLoop backend 0 with ⟨res1, calls, waits⟩
    rw [hq] at hpos
    cases res1 <;>
      simp [stepQuery, queryCollection, hcache, getFromCache, mapGet?, hq] <;>
      exact hpos

/-- C2 witness: the amended theorem applied to a concrete state whose index
is non-empty and whose cache holds one entry: the delete clears the cache
and the next query reaches the backend. -/
theorem C2_amended_witness :
    (deleteAllDocuments ⟨["d1"], [("k", ⟨0, resR1⟩)]⟩).cache = [] ∧
    1 ≤ ((stepQuery (deleteAllDocuments ⟨["d1"], [("k", ⟨0, resR1⟩)]⟩)
      "rag_documents" 3 ["q"] "{}" 0 (fun _ => .ok resR1)).2).backendCalls := by
  have h := C2_amended.2 ⟨["d1"], [("k", ⟨0, resR1⟩)]⟩ (by decide)
  exact ⟨h.1, h.2 "rag_documents" 3 ["q"] "{}" 0 (fun _ => .ok resR1)⟩

/-! ## C3 — repeated identical queries within the TTL -/

/-- An empty retrieval result. -/
def emptyResults : QueryResults := ⟨[], [], []⟩

/-- A backend that always succeeds with a fixed result. -/
def okBackend (r : QueryResults) : Nat → Except String QueryResults :=
  fun _ => .ok r

/-- C3 trace: query `A` is issued against an empty cache and cached. -/
def c3State1 : IndexState :=
  (stepQuery ⟨["d1"], []⟩ "c" 3 ["A"] "{}" 0 (okBackend resR1)).1

/-- C3 trace: 100 further retrieval queries with pairwise distinct texts are
issued — retrievals only, no index mutation. -/
def c3State2 : IndexState :=
  (List.range 100).foldl
    (fun st i =>
      (stepQuery st "c" 3 ["B" ++ toString i] "{}" 0
        (okBackend emptyResults)).1)
    c3State1

/-- C3 trace: query `A` is reissued with identical arguments at time 5 ms
(well within the 30-minute TTL). -/
def c3Outcome : QueryOutcome :=
  (stepQuery c3State2 "c" 3 ["A"] "{}" 5 (okBackend emptyResults)).2

set_option maxRecDepth 40000 in
/-- C3 counterexample: two `queryCollection` calls with identical arguments
within the TTL and with no intervening index mutation — but with 100
distinct retrieval queries in between.  The capacity-100 eviction has
dropped query `A`'s entry, so the second identical call invokes the
backend again (1 call, not 0) and returns the fresh backend result rather
than the first call's cached `resR1`. -/
theorem C3_counterexample :
    (stepQuery ⟨["d1"], []⟩ "c" 3 ["A"] "{}" 0 (okBackend resR1)).2.result
      = .ok resR1 ∧
    c3Outcome.backendCalls = 1 ∧
    c3Outcome.result = .ok emptyResults ∧
    emptyResults ≠ resR1 := by
  exact ⟨rfl, rfl, rfl, by decide⟩

/-- A sequence of `queryCollection` calls with identical arguments, issued at
the given times; returns the final cache and the total number of backend
calls made. -/
def iterateIdenticalCalls (cache : QueryCache) (cn : String) (nr : Nat)
    (qts : List String) (opts : String)
    (backend1 : Nat → Except String QueryResults) (ts : List Nat) :
    QueryCache × Nat :=
  ts.foldl (fun acc t =>
    ((queryCollection acc.1 cn nr qts opts t backend1).cache,
      acc.2 + (queryCollection acc.1 cn nr qts opts t backend1).backendCalls))
    (cache, 0)

/-- C3 (amended): when a `queryCollection` call misses the cache and the
backend succeeds, then — as long as no intervening operation evicts or
invalidates the entry (in particular, for consecutive identical calls) —
every subsequent call with identical arguments issued within the TTL of
the first call returns the identical cached result with zero backend
calls and leaves the cache unchanged, and any sequence of such calls
makes zero backend calls in total. -/
theorem C3_amended (cache : QueryCache) (cn : String) (nr : Nat)
    (qts : List String) (opts : String) (now0 : Nat)
    (backend : Nat → Except String QueryResults) (r : QueryResults)
    (hmiss : (getFromCache cache (generateCacheKey cn nr qts opts) now0).1
      = none)
    (hok : (retryLoop backend 0).1 = .ok r) :
    (queryCollection cache cn nr qts opts now0 backend).result = .ok r ∧
    (∀ (now1 : Nat) (backend1 : Nat → Except String QueryResults),
      now1 - now0 ≤ CACHE_TTL →
      queryCollection (queryCollection cache cn nr qts opts now0 backend).cache
          cn nr qts opts now1 backend1
        = ⟨.ok r, (queryCollection cache cn nr qts opts now0 backend).cache,
            0, []⟩) ∧
    (∀ (ts : List Nat) (backend1 : Nat → Except String QueryResults),
      (∀ t ∈ ts, t - now0 ≤ CACHE_TTL) →
      iterateIdenticalCalls
          (queryCollection cache cn nr qts opts now0 backend).cache
          cn nr qts opts backend1 ts
        = ((queryCollection cache cn nr qts opts now0 backend).cache, 0)) := by
  have hcache :
      (queryCollection cache cn nr qts opts now0 backend).cache
        = addToCache
            (getFromCache cache (generateCacheKey cn nr qts opts) now0).2
            (generateCacheKey cn nr qts opts) now0 r := by
    simp [queryCollection, hmiss, hok]
  have hres :
      (queryCollection cache cn nr qts opts now0 backend).result = .ok r := by
    simp [queryCollection, hmiss, hok]
  have hsecond : ∀ (now1 : Nat)
      (backend1 : Nat → Except String QueryResults),
      now1 - now0 ≤ CACHE_TTL →
      queryCollection (queryCollection cache cn nr qts opts now0 backend).cache
          cn nr qts opts now1 backend1
        = ⟨.ok r, (queryCollection cache cn nr qts opts now0 backend).cache,
            0, []⟩ := by
    intro now1 backend1 httl
    rw [hcache]
    simp [queryCollection, getFromCache_addToCache_self _ _ _ _ _ httl]
  refine ⟨hres, hsecond, ?_⟩
  intro ts backend1 hts
  suffices h : ∀ (n : Nat),
      ts.foldl (fun acc t =>
        ((queryCollection acc.1 cn nr qts opts t backend1).cache,
          acc.2 + (queryCollection acc.1 cn nr qts opts t
            backend1).backendCalls))
        ((queryCollection cache cn nr qts opts now0 backend).cache, n)
      = ((queryCollection cache cn nr qts opts now0 backend).cache, n) by
    exact h 0
  induction ts with
  | nil => intro n; rfl
  | cons t ts ih =>
    intro n
    have ht := hsecond t backend1 (hts t (by simp))
    simp only [List.foldl_cons, ht]
    exact ih (fun t ht' => hts t (by simp [ht'])) n

/-- Concrete first-call data for the C3 witness. -/
def c3wCache : QueryCache :=
  (queryCollection [] "c" 3 ["A"] "{}" 0 (okBackend resR1)).cache

/-- C3 witness: the amended theorem applied to an empty cache and an
always-succeeding backend; the repeat call at time 5 ms is served from the
cache with zero backend calls, even against a backend that would fail. -/
theorem C3_amended_witness :
    queryCollection c3wCache "c" 3 ["A"] "{}" 5 (fun _ => .error "down")
      = ⟨.ok resR1, c3wCache, 0, []⟩ :=
  (C3_amended [] "c" 3 ["A"] "{}" 0 (okBackend resR1) resR1 rfl rfl).2.1
    5 (fun _ => .error "down") (by simp [CACHE_TTL])

/-! ## C9 — `ensureOllamaConnection` semantics -/

/-- C9: `ensureOllamaConnection` returns exactly the health of the probed
client handle; when the pre-existing handle is healthy it returns `true`
and leaves the module state — in particular the client handle — unchanged
(so repeated calls are idempotent); when the probe fails it returns
`false` and the handle has been replaced by a freshly constructed client,
distinct from the probed one.  The function is a total Lean function:
every exception of the probe is caught and the constructor performs no
I/O, so no call throws. -/
theorem C9_ensure_connection (st : ClientState)
    (healthy : OllamaClient → Bool) :
    ((ensureOllamaConnection st healthy).1
      = healthy (getOllamaClient st).1) ∧
    (healthy (getOllamaClient st).1 = true →
      ensureOllamaConnection st healthy = (true, (getOllamaClient st).2)) ∧
    (∀ c, st.ollamaClient = some c → healthy c = true →
      ensureOllamaConnection st healthy = (true, st)) ∧
    (healthy (getOllamaClient st).1 = false →
      (ensureOllamaConnection st healthy).1 = false ∧
      (ensureOllamaConnection st healthy).2.ollamaClient
        = some ⟨(getOllamaClient st).2.nextId⟩) ∧
    (∀ c, st.ollamaClient = some c → c.id < st.nextId → healthy c = false →
      (ensureOllamaConnection st healthy).2.ollamaClient ≠ some c) := by
  refine ⟨?_, ?_, ?_, ?_, ?_⟩
  · cases hcl : st.ollamaClient with
    | none =>
      by_cases hh : healthy ⟨st.nextId⟩ = true <;>
        simp [ensureOllamaConnection, getOllamaClient, hcl, hh]
    | some c =>
      by_cases hh : healthy c = true <;>
        simp [ensureOllamaConnection, getOllamaClient, hcl, hh]
  · intro hh
    cases hcl : st.ollamaClient with
    | none => simp [ensureOllamaConnection, getOllamaClient, hcl] at hh ⊢
              simp [hh]
    | some c => simp [ensureOllamaConnection, getOllamaClient, hcl] at hh ⊢
                simp [hh]
  · intro c hcl hh
    simp [ensureOllamaConnection, getOllamaClient, hcl, hh]
  · intro hh
    cases hcl : st.ollamaClient with
    | none => simp [ensureOllamaConnection, getOllamaClient, hcl] at hh ⊢
              simp [hh]
    | some c => simp [ensureOllamaConnection, getOllamaClient, hcl] at hh ⊢
                simp [hh]
  · intro c hcl hlt hh
    simp [ensureOllamaConnection, getOllamaClient, hcl, hh]
    intro heq
    exact absurd (congrArg OllamaClient.id heq.symm) (Nat.ne_of_lt hlt)

/-- C9 witness: a healthy pre-existing handle is kept unchanged with result
`true`, and the same call with a failing probe replaces handle #0 by the
fresh handle #1 and returns `false`. -/
theorem C9_ensure_connection_witness :
    ensureOllamaConnection ⟨some ⟨0⟩, 1⟩ (fun _ => true) = (true, ⟨some ⟨0⟩, 1⟩) ∧
    (ensureOllamaConnection ⟨some ⟨0⟩, 1⟩ (fun _ => false)).2.ollamaClient
      ≠ some ⟨0⟩ :=
  ⟨(C9_ensure_connection ⟨some ⟨0⟩, 1⟩ (fun _ => true)).2.2.1 ⟨0⟩ rfl rfl,
    (C9_ensure_connection ⟨some ⟨0⟩, 1⟩ (fun _ => false)).2.2.2.2 ⟨0⟩ rfl
      (by decide) rfl⟩

/-! ## C10 — source-content truncation with unconditional ellipsis -/

/-- Mapping over the paired indices of an enumeration, when the function only
reads the index. -/
theorem enum_map_index {α β : Type} (l : List α) (g : Nat → β) :
    l.enum.map (fun p => g p.1) = (List.range l.length).map g := by
  rw [show (fun p : Nat × α => g p.1) = g ∘ Prod.fst from rfl,
    ← List.map_map, List.enum_map_fst]

/-- Reading a list positionally over the range of its length is mapping over
the list. -/
theorem map_range_getD {β : Type} (l : List String) (g : String → β) :
    (List.range l.length).map (fun i => g (l.getD i "")) = l.map g := by
  induction l with
  | nil => rfl
  | cons a t ih =>
    rw [List.length_cons, List.range_succ_eq_map, List.map_cons,
      List.map_map]
    have h2 : ((fun i => g ((a :: t).getD i "")) ∘ Nat.succ)
        = fun i => g (t.getD i "") := rfl
    rw [h2, ih]
    rfl

/-- The document used by the C10 short-document instance. -/
def c10Results : QueryResults := ⟨[["d1"]], [["short"]], [[⟨some "Doc A"⟩]]⟩

set_option maxRecDepth 10000 in
/-- C10: every source entry produced by the retrieval paths of
`queryWithContext` (`ragExtract`) and `chatWithContext` (`chatExtract`)
has `content` equal to the first 100 characters of the matched document
followed by the literal `"..."`, unconditionally; in particular a 5-character
document yields the 8-character display content `"short..."`, longer than
the document itself. -/
theorem C10_truncation :
    (∀ results : QueryResults,
      (firstMetas results).length = (firstDocs results).length →
      (ragExtract results).2.map (fun s => s.content)
        = (firstDocs results).map (fun d => jsSubstring100 d ++ "...")) ∧
    (∀ results : QueryResults,
      (chatExtract results).2.map (fun s => s.content)
        = (firstDocs results).map (fun d => jsSubstring100 d ++ "...")) ∧
    (chatExtract c10Results).2 = [⟨"d1", "Doc A", "short..."⟩] ∧
    ((firstDocs c10Results).getD 0 "").length
      < (((chatExtract c10Results).2.map (fun s => s.content)).headD "").length := by
  refine ⟨?_, ?_, by decide, by decide⟩
  · intro results hlen
    unfold ragExtract
    by_cases hd : 0 < (firstDocs results).length
    · rw [if_pos hd, List.map_map]
      have h1 : ((fun s : SourceEntry => s.content) ∘ (fun p : Nat × Metadata =>
          ({ id := (firstIds results).getD p.1 ""
             title := jsOrElse p.2.source ("Document " ++ toString (p.1 + 1))
             content := jsSubstring100 ((firstDocs results).getD p.1 "")
               ++ "..." } : SourceEntry)))
          = fun p : Nat × Metadata =>
              jsSubstring100 ((firstDocs results).getD p.1 "") ++ "..." := rfl
      rw [h1, enum_map_index _
        (fun i => jsSubstring100 ((firstDocs results).getD i "") ++ "..."),
        hlen]
      exact map_range_getD (firstDocs results)
        (fun d => jsSubstring100 d ++ "...")
    · rw [if_neg hd]
      have : firstDocs results = [] := by
        cases h : firstDocs results with
        | nil => rfl
        | cons a t => rw [h] at hd; simp at hd
      rw [this]
      rfl
  · intro results
    unfold chatExtract
    by_cases hd : 0 < (firstDocs results).length
    · rw [if_pos hd, List.map_map]
      have h1 : ((fun s : SourceEntry => s.content) ∘ (fun p : Nat × String =>
          ({ id := (firstIds results).getD p.1 ""
             title := jsOrElse (((firstMetas results).get? p.1).bind
               (fun m => m.source)) ("Document " ++ toString (p.1 + 1))
             content := jsSubstring100 p.2 ++ "..." } : SourceEntry)))
          = (fun d => jsSubstring100 d ++ "...") ∘ (fun p : Nat × String => p.2) :=
        rfl
      rw [h1, ← List.map_map]
      rw [show (fun p : Nat × String => p.2) = Prod.snd from rfl,
        List.enum_map_snd]
    · rw [if_neg hd]
      have : firstDocs results = [] := by
        cases h : firstDocs results with
        | nil => rfl
        | cons a t => rw [h] at hd; simp at hd
      rw [this]
      rfl

/-- C10 witness: the rag-side truncation equation applied to the concrete
short-document result. -/
theorem C10_truncation_witness :
    (ragExtract c10Results).2.map (fun s => s.content)
      = (firstDocs c10Results).map (fun d => jsSubstring100 d ++ "...") :=
  C10_truncation.1 c10Results (by decide)

/-! ## C4 — history windowing in `chatWithContext` -/

/-- `slice(-10)` on a list ending in the freshly pushed user message: the new
message occupies one of the 10 slots, so at most the 9 most recent prior
messages survive. -/
theorem jsSliceLast_push {α : Type} (l : List α) (u : α) :
    jsSliceLast 10 (l ++ [u]) = jsSliceLast 9 l ++ [u] := by
  unfold jsSliceLast
  rw [List.length_append, List.drop_append_eq_append_drop]
  have h1 : l.length + [u].length - 10 = l.length - 9 := by simp
  have h2 : l.length - 9 - l.length = 0 := by omega
  rw [h1, h2]
  rfl

/-- The 12 prior turns of the C4 scenario, contents `turn1` … `turn12`, with
alternating user/assistant roles. -/
def c4Prior : List ChatMsg :=
  (List.range 12).map (fun i =>
    ⟨if i % 2 = 0 then Role.user else Role.assistant,
      "turn" ++ toString (i + 1)⟩)

/-- The new user message of the C4 scenario. -/
def c4NewMsg : ChatMsg := ⟨.user, "new question"⟩

/-- The message list assembled by `chatWithContext` in the C4 scenario (12
prior turns, empty context, no chain-of-thought). -/
def c4Assembled : List ChatMsg :=
  assembleChatMessages (c4Prior ++ [c4NewMsg]) "" false

set_option maxRecDepth 10000 in
/-- C4 counterexample: with 12 prior turns and the window of 10, the prompt
assembled by `chatWithContext` does **not** contain prior turn 3 — the new
user message is pushed onto the conversation before `slice(-10)` is taken,
so the window holds only the 9 most recent prior turns (4–12) plus the new
message (which is last). -/
theorem C4_counterexample :
    (c4Assembled.filter (fun m => m.content = "turn3")).length = 0 ∧
    (c4Assembled.filter (fun m => m.content = "turn4")).length = 1 ∧
    c4Assembled.getLast? = some c4NewMsg := by
  refine ⟨by decide, by decide, by decide⟩

set_option maxRecDepth 10000 in
/-- C4 (amended): for a conversation with 12 prior turns and the fixed window
of 10, the history portion of the assembled prompt contains exactly prior
turns 4–12 followed by the new user message (turns 1–3 never appear); in
general the window is `slice(-10)` of the conversation after the push —
i.e. the at-most-9 most recent prior turns plus the new user message —
and it follows the system messages in the assembled prompt. -/
theorem C4_amended :
    (c4Assembled
      = ⟨Role.system, chatSystemPrompt false⟩ ::
          (c4Prior.drop 3 ++ [c4NewMsg])) ∧
    (∀ (prior : List ChatMsg) (u : ChatMsg) (context : String) (cot : Bool),
      jsSliceLast 10 (prior ++ [u]) = jsSliceLast 9 prior ++ [u] ∧
      (jsSliceLast 9 prior).length ≤ 9 ∧
      (jsSliceLast 9 prior ++ [u]).getLast? = some u ∧
      (∃ sys : List ChatMsg,
        assembleChatMessages (prior ++ [u]) context cot
          = sys ++ (jsSliceLast 9 prior ++ [u]) ∧
        ∀ m ∈ sys, m.role = Role.system)) := by
  constructor
  · decide
  · intro prior u context cot
    refine ⟨jsSliceLast_push prior u, ?_, List.getLast?_concat _, ?_⟩
    · unfold jsSliceLast
      rw [List.length_drop]
      omega
    · refine ⟨⟨Role.system, chatSystemPrompt cot⟩ ::
        (if context = "" then []
         else [⟨Role.system, "Context information:\n" ++ context⟩]), ?_, ?_⟩
      · unfold assembleChatMessages
        rw [jsSliceLast_push]
        simp
      · intro m hm
        by_cases hctx : context = ""
        · simp [hctx] at hm
          rw [hm]
        · simp [hctx] at hm
          rcases hm with hm | hm <;> rw [hm]

/-- C4 witness: the general windowing equation of the amended claim applied
to the concrete 12-turn scenario. -/
theorem C4_amended_witness :
    jsSliceLast 10 (c4Prior ++ [c4NewMsg])
      = jsSliceLast 9 c4Prior ++ [c4NewMsg] :=
  (C4_amended.2 c4Prior c4NewMsg "" false).1

/-! ## C5 — prompt layout: base system message, context block, user last -/

/-- A retrieval result whose snippet list is non-empty but consists of a
single empty document. -/
def c5Results : QueryResults := ⟨[["d1"]], [[""]], [[⟨some "Doc A"⟩]]⟩

/-- C5 counterexample: with a non-empty retrieved snippet list containing one
empty document, the context string joins to `""` and `queryWithContext`
assembles **no** context system message (the prompt is just the base
system message and the user message), refuting the claimed
"context message present iff snippet list non-empty". -/
theorem C5_counterexample :
    (firstDocs c5Results).length = 1 ∧
    (ragExtract c5Results).2.length = 1 ∧
    ragMessages (ragExtract c5Results).1 "What is JavaScript?"
      = [⟨Role.system, ragSystemPrompt⟩,
          ⟨Role.user, "What is JavaScript?"⟩] := by
  exact ⟨rfl, rfl, rfl⟩

/-- The context string extracted by `ragService` is always the blank-line
join of the first query text's documents. -/
theorem ragExtract_fst (results : QueryResults) :
    (ragExtract results).1 = String.intercalate "\n\n" (firstDocs results) := by
  unfold ragExtract
  by_cases hd : 0 < (firstDocs results).length
  · rw [if_pos hd]
  · rw [if_neg hd]
    have hnil : firstDocs results = [] := by
      cases h : firstDocs results with
      | nil => rfl
      | cons a t => rw [h] at hd; simp at hd
    rw [hnil]
    rfl

/-- The context string extracted by `chatService` is always the blank-line
join of the first query text's documents. -/
theorem chatExtract_fst (results : QueryResults) :
    (chatExtract results).1 = String.intercalate "\n\n" (firstDocs results) := by
  unfold chatExtract
  by_cases hd : 0 < (firstDocs results).length
  · rw [if_pos hd]
  · rw [if_neg hd]
    have hnil : firstDocs results = [] := by
      cases h : firstDocs results with
      | nil => rfl
      | cons a t => rw [h] at hd; simp at hd
    rw [hnil]
    rfl

/-- In `queryWithContext`'s prompt, a `Context information:` system message
occurs exactly when the context string is non-empty. -/
theorem ragMessages_ctx_iff (ctx q : String) :
    (∃ m ∈ ragMessages ctx q, m.role = Role.system ∧
        m.content = "Context information:\n" ++ ctx) ↔ ctx ≠ "" := by
  by_cases hctx : ctx = ""
  · subst hctx
    constructor
    · rintro ⟨m, hm, hrole, hcontent⟩
      simp [ragMessages] at hm
      rcases hm with hm | hm
      · rw [hm] at hcontent
        exact absurd hcontent (by decide)
      · rw [hm] at hrole
        simp at hrole
    · intro h
      exact absurd rfl h
  · constructor
    · intro _
      exact hctx
    · intro _
      refine ⟨⟨Role.system, "Context information:\n" ++ ctx⟩, ?_, rfl, rfl⟩
      simp [ragMessages, hctx]

/-- The last message of `queryWithContext`'s prompt is the user query. -/
theorem ragMessages_getLast (ctx q : String) :
    (ragMessages ctx q).getLast? = some ⟨Role.user, q⟩ := by
  unfold ragMessages
  rw [List.getLast?_concat]

/-- In `chatWithContext`'s prompt, for a history of user/assistant turns, a
`Context information:` system message occurs exactly when the context
string is non-empty. -/
theorem assembleChatMessages_ctx_iff (hist : List ChatMsg) (ctx : String)
    (cot : Bool) (hroles : ∀ m ∈ hist, m.role ≠ Role.system) :
    (∃ m ∈ assembleChatMessages hist ctx cot, m.role = Role.system ∧
        m.content = "Context information:\n" ++ ctx) ↔ ctx ≠ "" := by
  by_cases hctx : ctx = ""
  · subst hctx
    constructor
    · rintro ⟨m, hm, hrole, hcontent⟩
      simp [assembleChatMessages] at hm
      rcases hm with hm | hm
      · rw [hm] at hcontent
        cases cot <;> exact absurd hcontent (by decide)
      · have hmem : m ∈ hist := List.drop_subset _ _ hm
        exact absurd hrole (hroles m hmem)
    · intro h
      exact absurd rfl h
  · constructor
    · intro _
      exact hctx
    · intro _
      refine ⟨⟨Role.system, "Context information:\n" ++ ctx⟩, ?_, rfl, rfl⟩
      simp [assembleChatMessages, hctx]

/-- The last message of `chatWithContext`'s prompt is the freshly pushed user
message. -/
theorem assembleChatMessages_getLast (prior : List ChatMsg) (u : ChatMsg)
    (ctx : String) (cot : Bool) :
    (assembleChatMessages (prior ++ [u]) ctx cot).getLast? = some u := by
  simp only [assembleChatMessages, jsSliceLast_push]
  rw [List.getLast?_append_of_ne_nil _ (by simp), List.getLast?_concat]

/-- C5 (amended): in both services the assembled sequence starts with the
base system-instruction message and ends with the new user message; the
context string is the blank-line concatenation of the retrieved snippets,
and a `Context information:` system message is present if and only if that
concatenation is a non-empty string — not iff the snippet list is
non-empty: with an empty index it is absent, and a snippet list holding a
single empty document joins to `""` and also produces none (while, e.g.,
two empty documents join to the non-empty separator string and do produce
one); when present it carries the full concatenation. -/
theorem C5_assembly :
    (∀ (results : QueryResults) (q : String),
      (ragExtract results).1
          = String.intercalate "\n\n" (firstDocs results) ∧
      (ragMessages (ragExtract results).1 q).head?
          = some ⟨Role.system, ragSystemPrompt⟩ ∧
      (ragMessages (ragExtract results).1 q).getLast?
          = some ⟨Role.user, q⟩ ∧
      ((∃ m ∈ ragMessages (ragExtract results).1 q,
          m.role = Role.system ∧
          m.content = "Context information:\n" ++ (ragExtract results).1)
        ↔ (ragExtract results).1 ≠ "")) ∧
    (∀ (prior : List ChatMsg) (u : String) (results : QueryResults)
        (cot : Bool),
      (∀ m ∈ prior, m.role ≠ Role.system) →
      (chatExtract results).1
          = String.intercalate "\n\n" (firstDocs results) ∧
      (assembleChatMessages (prior ++ [⟨Role.user, u⟩])
          (chatExtract results).1 cot).head?
        = some ⟨Role.system, chatSystemPrompt cot⟩ ∧
      (assembleChatMessages (prior ++ [⟨Role.user, u⟩])
          (chatExtract results).1 cot).getLast?
        = some ⟨Role.user, u⟩ ∧
      ((∃ m ∈ assembleChatMessages (prior ++ [⟨Role.user, u⟩])
            (chatExtract results).1 cot,
          m.role = Role.system ∧
          m.content = "Context information:\n" ++ (chatExtract results).1)
        ↔ (chatExtract results).1 ≠ "")) := by
  constructor
  · intro results q
    exact ⟨ragExtract_fst results, rfl, ragMessages_getLast _ q,
      ragMessages_ctx_iff _ q⟩
  · intro prior u results cot hroles
    refine ⟨chatExtract_fst results, rfl,
      assembleChatMessages_getLast prior ⟨Role.user, u⟩ _ cot, ?_⟩
    apply assembleChatMessages_ctx_iff
    intro m hm
    rcases List.mem_append.mp hm with h | h
    · exact hroles m h
    · simp at h
      rw [h]
      intro hr
      simp at hr

/-- C5 witness: the chat-side conclusions of the assembly theorem applied to
a concrete two-turn history and the one-document retrieval result. -/
theorem C5_assembly_witness :
    (chatExtract resR1).1 = String.intercalate "\n\n" (firstDocs resR1) ∧
    (assembleChatMessages
        ([⟨Role.user, "hi"⟩, ⟨Role.assistant, "hello"⟩] ++ [⟨Role.user, "q"⟩])
        (chatExtract resR1).1 false).head?
      = some ⟨Role.system, chatSystemPrompt false⟩ ∧
    (assembleChatMessages
        ([⟨Role.user, "hi"⟩, ⟨Role.assistant, "hello"⟩] ++ [⟨Role.user, "q"⟩])
        (chatExtract resR1).1 false).getLast?
      = some ⟨Role.user, "q"⟩ ∧
    ((∃ m ∈ assembleChatMessages
          ([⟨Role.user, "hi"⟩, ⟨Role.assistant, "hello"⟩] ++ [⟨Role.user, "q"⟩])
          (chatExtract resR1).1 false,
        m.role = Role.system ∧
        m.content = "Context information:\n" ++ (chatExtract resR1).1)
      ↔ (chatExtract resR1).1 ≠ "") :=
  C5_assembly.2 [⟨Role.user, "hi"⟩, ⟨Role.assistant, "hello"⟩] "q" resR1 false
    (by decide)

/-! ## C8 — cache size bound, eviction order, TTL expiry -/

/-- Deleting a key removes every binding of it. -/
theorem mapHas_mapDelete_self {β : Type} (m : List (String × β))
    (k : String) : mapHas (mapDelete m k) k = false := by
  simp only [mapHas, mapDelete, List.any_eq_false, List.mem_filter]
  rintro p ⟨_, hne⟩
  simpa using hne

/-- Deleting one key leaves the presence of the others unchanged. -/
theorem mapHas_mapDelete_ne {β : Type} (m : List (String × β))
    (k k' : String) (h : k ≠ k') :
    mapHas (mapDelete m k') k = mapHas m k := by
  rw [Bool.eq_iff_iff]
  simp only [mapHas, List.any_eq_true, mapDelete, List.mem_filter,
    decide_eq_true_eq]
  constructor
  · rintro ⟨p, ⟨hp, _⟩, hpk⟩
    exact ⟨p, hp, hpk⟩
  · rintro ⟨p, hp, hpk⟩
    refine ⟨p, ⟨hp, ?_⟩, hpk⟩
    simp only [ne_eq, decide_not, Bool.not_eq_false', decide_eq_true_eq]
    intro hk'
    exact h (hpk.symm.trans hk')

/-- `set` never removes a key. -/
theorem mapHas_mapSet_preserved {β : Type} (m : List (String × β))
    (k k' : String) (v : β) (h : mapHas m k = true) :
    mapHas (mapSet m k' v) k = true := by
  unfold mapSet
  by_cases hk' : mapHas m k'
  · rw [if_pos hk']
    simp only [mapHas, List.any_eq_true, decide_eq_true_eq] at h ⊢
    obtain ⟨p, hp, hpk⟩ := h
    refine ⟨if p.1 = k' then (k', v) else p, List.mem_map_of_mem _ hp, ?_⟩
    by_cases hpk' : p.1 = k'
    · simp only [if_pos hpk']
      rw [← hpk']
      exact hpk
    · simp only [if_neg hpk']
      exact hpk
  · rw [if_neg hk']
    simp only [mapHas, List.any_append, Bool.or_eq_true]
    exact Or.inl h
/-- The in-place update of a key leaves the presence of any other key
unchanged. -/
theorem mapHas_update_ne {β : Type} (m : List (String × β))
    (k k' : String) (v : β) (h : k ≠ k') :
    mapHas (m.map (fun p => if p.1 = k' then (k', v) else p)) k
      = mapHas m k := by
  induction m with
  | nil => rfl
  | cons a t ih =>
    simp only [List.map_cons, mapHas, List.any_cons] at ih ⊢
    rw [ih]
    congr 1
    by_cases ha : a.1 = k' <;> simp [ha]

/-- `set` of one key leaves the presence of any other key unchanged. -/
theorem mapHas_mapSet_ne {β : Type} (m : List (String × β))
    (k k' : String) (v : β) (h : k ≠ k') :
    mapHas (mapSet m k' v) k = mapHas m k := by
  unfold mapSet
  by_cases hk' : mapHas m k'
  · rw [if_pos hk']
    exact mapHas_update_ne m k k' v h
  · rw [if_neg hk']
    simp [mapHas, List.any_append, Ne.symm h]

/-- `set` grows the map by at most one entry. -/
theorem mapSet_length_le {β : Type} (m : List (String × β)) (k : String)
    (v : β) : (mapSet m k v).length ≤ m.length + 1 := by
  unfold mapSet
  by_cases h : mapHas m k
  · rw [if_pos h, List.length_map]
    omega
  · rw [if_neg h, List.length_append]
    simp

/-- Deleting the head's key removes at least the head. -/
theorem mapDelete_head_length {β : Type} (a : String × β)
    (t : List (String × β)) : (mapDelete (a :: t) a.1).length ≤ t.length := by
  unfold mapDelete
  rw [List.filter_cons]
  simp only [ne_eq, decide_not, Bool.not_eq_true', decide_eq_false_iff_not,
    not_not]
  rw [if_neg (by simp)]
  exact List.length_filter_le _ t

/-- `addToCache` keeps the cache at or below the fixed capacity. -/
theorem addToCache_length_le (cache : QueryCache) (k : String) (now : Nat)
    (r : QueryResults) (h : cache.length ≤ MAX_CACHE_SIZE) :
    (addToCache cache k now r).length ≤ MAX_CACHE_SIZE := by
  simp only [addToCache]
  by_cases hcap : MAX_CACHE_SIZE ≤ cache.length
  · rw [if_pos hcap]
    cases cache with
    | nil => simp [MAX_CACHE_SIZE] at hcap
    | cons a t =>
      have h1 := mapSet_length_le (mapDelete (a :: t) a.1) k
        (⟨now, r⟩ : CacheEntry)
      have h2 := mapDelete_head_length a t
      have h3 : (a :: t).length = t.length + 1 := by simp
      rw [h3] at h
      show (mapSet (mapDelete (a :: t) a.1) k
        (⟨now, r⟩ : CacheEntry)).length ≤ MAX_CACHE_SIZE
      omega
  · rw [if_neg hcap]
    have h1 := mapSet_length_le cache k (⟨now, r⟩ : CacheEntry)
    omega

/-- C8 (amended): the cache size never exceeds the fixed capacity of 100
entries; an entry older than the 30-minute TTL is treated as absent on
read and removed from the cache at that read (a younger one is served
as-is, leaving the cache unchanged); and, once at capacity, inserting a
new entry evicts exactly the entry at the head of the iteration order —
the **oldest-inserted** entry (reads do not refresh an entry's position,
so the evicted entry may well be the most recently used one), while every
other key survives the insertion. -/
theorem C8_amended :
    (∀ (cache : QueryCache) (k : String) (now : Nat) (r : QueryResults),
      cache.length ≤ MAX_CACHE_SIZE →
      (addToCache cache k now r).length ≤ MAX_CACHE_SIZE) ∧
    (∀ (cache : QueryCache) (k : String) (now : Nat) (e : CacheEntry),
      mapGet? cache k = some e → CACHE_TTL < now - e.timestamp →
      getFromCache cache k now = (none, mapDelete cache k)) ∧
    (∀ (cache : QueryCache) (k : String) (now : Nat) (e : CacheEntry),
      mapGet? cache k = some e → now - e.timestamp ≤ CACHE_TTL →
      getFromCache cache k now = (some e.results, cache)) ∧
    (∀ (cache : QueryCache) (k0 : String) (e0 : CacheEntry) (knew : String)
        (now : Nat) (r : QueryResults),
      MAX_CACHE_SIZE ≤ cache.length → cache.head? = some (k0, e0) →
      k0 ≠ knew →
      mapHas (addToCache cache knew now r) k0 = false) ∧
    (∀ (cache : QueryCache) (k0 : String) (e0 : CacheEntry) (knew : String)
        (now : Nat) (r : QueryResults) (k : String),
      cache.head? = some (k0, e0) → k ≠ k0 →
      mapHas cache k = true →
      mapHas (addToCache cache knew now r) k = true) := by
  refine ⟨addToCache_length_le, ?_, ?_, ?_, ?_⟩
  · intro cache k now e hget httl
    simp [getFromCache, hget, httl]
  · intro cache k now e hget httl
    simp [getFromCache, hget, Nat.not_lt.mpr httl]
  · intro cache k0 e0 knew now r hcap hhead hne
    have hfirst : mapFirstKey? cache = some k0 := by
      simp [mapFirstKey?, hhead]
    simp only [addToCache, if_pos hcap, hfirst]
    rw [mapHas_mapSet_ne _ _ _ _ hne, mapHas_mapDelete_self]
  · intro cache k0 e0 knew now r k hhead hkne hk
    have hfirst : mapFirstKey? cache = some k0 := by
      simp [mapFirstKey?, hhead]
    simp only [addToCache]
    by_cases hcap : MAX_CACHE_SIZE ≤ cache.length
    · simp only [if_pos hcap, hfirst]
      apply mapHas_mapSet_preserved
      rw [mapHas_mapDelete_ne _ _ _ hkne]
      exact hk
    · rw [if_neg hcap]
      exact mapHas_mapSet_preserved _ _ _ _ hk

/-- The cache at full capacity used by the C8 counterexample: 100 entries
with keys `"0"` … `"99"`, inserted in that order. -/
def c8Cache : QueryCache :=
  (List.range 100).map (fun i => (toString i, ⟨0, emptyResults⟩))

set_option maxRecDepth 10000 in
/-- C8 counterexample: eviction is **not** least-recently-used by
insertion/access order.  With the cache at its capacity of 100, entry
`"0"` is read (a cache hit, making it the most recently used entry) and a
new key is then inserted: the insertion evicts the just-used `"0"` (first
in insertion order) while `"1"`, unused for longer, survives — under LRU
with access refresh, `"1"` would have been evicted and `"0"` retained. -/
theorem C8_counterexample :
    c8Cache.length = MAX_CACHE_SIZE ∧
    (getFromCache c8Cache "0" 5).1 = some emptyResults ∧
    (getFromCache c8Cache "0" 5).2 = c8Cache ∧
    mapHas (addToCache c8Cache "new" 5 resR1) "0" = false ∧
    mapHas (addToCache c8Cache "new" 5 resR1) "1" = true := by
  exact ⟨rfl, rfl, rfl, by decide, by decide⟩

/-- C8 witness: the amended theorem applied to concrete caches — the size
bound after an insert, an expired read (31 minutes after insertion)
purging the entry, and a live read (1 second) serving it. -/
theorem C8_amended_witness :
    (addToCache [("k1", ⟨0, emptyResults⟩)] "k2" 1 resR1).length
      ≤ MAX_CACHE_SIZE ∧
    getFromCache [("k1", ⟨0, emptyResults⟩)] "k1" 1860000
      = (none, mapDelete [("k1", ⟨0, emptyResults⟩)] "k1") ∧
    getFromCache [("k1", ⟨0, emptyResults⟩)] "k1" 1000
      = (some emptyResults, [("k1", ⟨0, emptyResults⟩)]) :=
  ⟨C8_amended.1 [("k1", ⟨0, emptyResults⟩)] "k2" 1 resR1 (by decide),
    C8_amended.2.1 [("k1", ⟨0, emptyResults⟩)] "k1" 1860000
      ⟨0, emptyResults⟩ rfl (by decide),
    C8_amended.2.2.1 [("k1", ⟨0, emptyResults⟩)] "k1" 1000
      ⟨0, emptyResults⟩ rfl (by decide)⟩

end RagOllama
